import Mathlib

/-! Verification development for the WAUG marketing-dashboard aggregation pipeline
(src/waug.py). Data-frame cells are modelled as `Option ℚ` (`none` is a missing
value / NaN), frames as lists of row structures, and the pandas/numpy operations
used by the pipeline (element-wise arithmetic, groupby-aggregate, filtering,
deduplication, rounding) as computable Lean functions translated from the source. -/

/-- Numeric cell value of a data-frame column: `none` models a missing value (NaN). -/
abbrev V := Option ℚ

/-- Model of the element-wise boolean test `y != 0` (IEEE: NaN compared to 0 is unequal,
so a missing value passes the test). -/
def vne0 : V → Bool
  | none => true
  | some q => decide (q ≠ 0)

/-- Element-wise division with NaN propagation; division of a number by an exact zero
produces Inf/NaN in numpy, modelled as missing (this branch is discarded by
`safe_division` anyway). -/
def vdiv : V → V → V
  | some a, some b => if b = 0 then none else some (a / b)
  | _, _ => none

/-- Element-wise multiplication of a cell by a constant (NaN propagates). -/
def vmul (x : V) (c : ℚ) : V := x.map (fun q => q * c)

/-- Shallow embedding of `safe_division(x, y) = np.where(y != 0, x / y, 0)` from waug.py. -/
def safe_division (x y : V) : V :=
  if vne0 y then vdiv x y else some 0

/-- Round-half-even to an integer, the rounding used by numpy/pandas `round`. -/
def rhe (q : ℚ) : ℤ :=
  if q - Int.floor q < 1 / 2 then Int.floor q
  else if 1 / 2 < q - Int.floor q then Int.floor q + 1
  else if Int.floor q % 2 = 0 then Int.floor q else Int.floor q + 1

/-- Model of pandas `Series.round(d)`: round-half-even at `d` decimal places. -/
def roundTo (d : ℕ) (q : ℚ) : ℚ := (rhe (q * 10 ^ d) : ℚ) / 10 ^ d

/-- Element-wise `round(1)` on a cell (NaN stays NaN). -/
def vround1 (v : V) : V := v.map (roundTo 1)

/-- Model of pandas `Series.sum()`: missing values are skipped, the empty sum is 0. -/
def vsumQ (l : List V) : ℚ := l.foldr (fun v s => v.getD 0 + s) 0

/-- Model of pandas `Series.mean()`: missing values are skipped, the mean over no
observed values is missing. -/
def vmean (l : List V) : V :=
  let xs := l.filterMap id
  if xs.length = 0 then none else some (xs.sum / (xs.length : ℚ))

/-- Helper for `drop_duplicates`: keeps the first occurrence of each element,
carrying the set of elements already seen. -/
def dd_go {α : Type} [DecidableEq α] : List α → List α → List α
  | [], _ => []
  | a :: t, seen => if a ∈ seen then dd_go t seen else a :: dd_go t (a :: seen)

/-- Model of pandas `drop_duplicates()` (keep the first occurrence). -/
def drop_duplicates {α : Type} [DecidableEq α] (l : List α) : List α := dd_go l []

/-- One row of a metrics frame: the group key (when the frame is a grouped result),
the raw aggregate columns, and the derived-metric columns of waug.py. -/
structure MRow where
  key : Option String
  imps : V
  clicks : V
  cost : V
  conv : V
  rev : V
  rank : V
  cpc : V
  ctr : V
  cpa : V
  cvr : V
  roas : V
  arppu : V
  share : V
deriving DecidableEq

/-- A metrics data frame: its rows plus whether the operating-share column
(`운영비중`) is present. -/
structure Frame where
  rows : List MRow
  hasShare : Bool
deriving DecidableEq

/-- Per-row body of `calculate_metrics` from waug.py: CPC, CTR, CPA, CVR, ROAS and
ARPPU are recomputed from the raw columns with `safe_division`; the operating share
is computed against `total_cost` only when the column is absent; the average
exposure rank is rounded to one decimal. -/
def calcRow (total_cost : ℚ) (hasShare : Bool) (r : MRow) : MRow :=
  { key := r.key
    imps := r.imps
    clicks := r.clicks
    cost := r.cost
    conv := r.conv
    rev := r.rev
    rank := vround1 r.rank
    cpc := safe_division r.cost r.clicks
    ctr := vmul (safe_division r.clicks r.imps) 100
    cpa := safe_division r.cost r.conv
    cvr := vmul (safe_division r.conv r.clicks) 100
    roas := vmul (safe_division r.rev r.cost) 100
    arppu := safe_division r.rev r.conv
    share := if hasShare then r.share
             else vmul (safe_division r.cost (some (total_cost))) 100 }

/-- Shallow embedding of `calculate_metrics(df)` from waug.py: derives all ratio
metrics on every row; `total_cost` is the sum of the cost column of this very frame,
and the operating-share column is created only if not already present. -/
def calculate_metrics (F : Frame) : Frame :=
  { rows := F.rows.map (calcRow (vsumQ (F.rows.map MRow.cost)) F.hasShare)
    hasShare := true }

/-- A cleaned (preprocessed) raw-data row: the columns of `raw_df` after
`preprocess_data`, restricted to the fields the analysed pipeline reads.
String-valued cells are `Option String` (`none` is a missing cell). -/
structure R where
  day : ℤ
  camp : Option String
  adg : Option String
  kw : Option String
  media : Option String
  ctype : Option String
  cat : Option String
  region : Option String
  ptype : Option String
  imps : V
  clicks : V
  cost : V
  conv : V
  rev : V
  rank : V
deriving DecidableEq

/-- A row of the uploaded `raw` sheet, restricted to the fields `preprocess_data`
maps: the source columns `캠페인 카테고리` and `캠페인 국가` live on the raw sheet
itself. -/
structure RawRow where
  day : ℤ
  ctype : Option String
  campaign : Option String
  adg : Option String
  kw : Option String
  media : Option String
  imps : V
  clicks : V
  cost : V
  conv : V
  rank : V
  rev : V
  raw_category : Option String
  raw_country : Option String
deriving DecidableEq

/-- A row of the uploaded `index` sheet (campaign → category/country reference). -/
structure IndexEntry where
  campaign : Option String
  category : Option String
  country : Option String
deriving DecidableEq

/-- Column mapping of `preprocess_data` in waug.py: `캠페인카테고리`, `지역` and
`상품유형` are copied from the raw sheet's own `캠페인 카테고리` / `캠페인 국가`
columns (lines 202-205 of the source). -/
def preprocess_row (r : RawRow) : R :=
  { day := r.day
    camp := r.campaign
    adg := r.adg
    kw := r.kw
    media := r.media
    ctype := r.ctype
    cat := r.raw_category
    region := r.raw_country
    ptype := r.raw_category
    imps := r.imps
    clicks := r.clicks
    cost := r.cost
    conv := r.conv
    rev := r.rev
    rank := r.rank }

/-- Shallow embedding of `preprocess_data(raw_df)`: the function receives only the
raw sheet; the index sheet is loaded by `load_data` but consumed nowhere in the
pipeline. -/
def preprocess_data (raw : List RawRow) : List R :=
  raw.map preprocess_row

/-- Key tuples of `filtered_df.groupby(['캠페인', '캠페인카테고리', '상품유형'])`:
pandas drops rows with a missing group key (`dropna=True` default) and keeps each
key once. -/
def campaign_keys (rows : List R) : List (Option String × Option String × Option String) :=
  drop_duplicates
    ((rows.filter (fun r => r.camp.isSome && r.cat.isSome && r.ptype.isSome)).map
      (fun r => (r.camp, r.cat, r.ptype)))

/-- Campaign-grouped keys produced from an uploaded workbook: the raw sheet is
preprocessed and grouped; the index sheet takes no part in the computation,
mirroring the source, where `index_df` is only previewed. -/
def campaign_metrics_from_upload (raw : List RawRow) (index_df : List IndexEntry) :
    List (Option String × Option String × Option String) :=
  campaign_keys (preprocess_data raw)

/-- Shallow embedding of the virtual-total expansion (lines 369-373 of waug.py):
the filtered rows are concatenated with a full copy whose `상품유형` is overwritten
with the sentinel `전체`, before any aggregation. -/
def expand_with_total (rows : List R) : List R :=
  rows ++ rows.map (fun r => { r with ptype := some "전체" })

/-- The member rows of the group with facet value `v` when grouping on `상품유형`. -/
def facet_group (v : String) (rows : List R) : List R :=
  rows.filter (fun r => decide (r.ptype = some v))

/-- Model of the `'키워드': 'nunique'` aggregation: number of distinct non-missing
keyword values. -/
def nunique_kw (rows : List R) : ℕ := (drop_duplicates (rows.filterMap R.kw)).length

/-- One aggregate row of `groupby(...).agg(agg_dict)` over member rows `g`:
sums for the five raw measures, mean for the exposure rank; the derived-metric
columns do not exist yet. -/
def mkGroupRow (k : Option String) (g : List R) : MRow :=
  { key := k
    imps := some (vsumQ (g.map R.imps))
    clicks := some (vsumQ (g.map R.clicks))
    cost := some (vsumQ (g.map R.cost))
    conv := some (vsumQ (g.map R.conv))
    rev := some (vsumQ (g.map R.rev))
    rank := vmean (g.map R.rank)
    cpc := none
    ctr := none
    cpa := none
    cvr := none
    roas := none
    arppu := none
    share := none }

/-- Rows of `filtered_df.groupby('지역').agg(agg_dict).reset_index()`; pandas drops
the missing-key rows. Key enumeration order abstracts pandas' sorted key order; no
statement below depends on it. -/
def regionGroupRows (rows : List R) : List MRow :=
  (drop_duplicates (rows.filterMap R.region)).map
    (fun v => mkGroupRow (some v) (rows.filter (fun r => decide (r.region = some v))))

/-- Insertion step for sorting group rows by descending cost. -/
def insert_by_cost (x : MRow) : List MRow → List MRow
  | [] => [x]
  | y :: t => if y.cost.getD 0 < x.cost.getD 0 then x :: y :: t else y :: insert_by_cost x t

/-- Model of `sort_values('총비용(VAT포함,원)', ascending=False)` on group rows. -/
def sort_values_cost_desc (l : List MRow) : List MRow := l.foldr insert_by_cost []

/-- Shallow embedding of the region analysis (lines 762-765 of waug.py): group the
filtered rows by `지역`, derive the metrics, sort by descending cost, drop exact
duplicate rows. -/
def region_metrics (rows : List R) : Frame :=
  let F := calculate_metrics { rows := regionGroupRows rows, hasShare := false }
  { rows := drop_duplicates (sort_values_cost_desc F.rows), hasShare := F.hasShare }

/-- The filter parameters supplied by the UI, after `handle_select_all` resolution. -/
structure FilterSpec where
  startD : ℤ
  endD : ℤ
  cats : List String
  camps : List String
  adgs : List String
  medias : List String
  regions : List String
  ctypes : List String
  ptypes : List String

/-- Membership test `series.isin(options)` on a string cell: a missing cell is
never a member. -/
def oin (o : Option String) (l : List String) : Bool :=
  match o with
  | none => false
  | some s => l.contains s

/-- The boolean mask of `filter_data` in waug.py: date range inclusive on both ends
plus set membership on each categorical dimension. -/
def row_mask (f : FilterSpec) (r : R) : Bool :=
  decide (f.startD ≤ r.day) && decide (r.day ≤ f.endD) &&
  oin r.cat f.cats && oin r.camp f.camps && oin r.adg f.adgs &&
  oin r.media f.medias && oin r.region f.regions &&
  oin r.ctype f.ctypes && oin r.ptype f.ptypes

/-- Shallow embedding of `filter_data(...)` from waug.py. -/
def filter_data (f : FilterSpec) (rows : List R) : List R :=
  rows.filter (row_mask f)

/-- View of a cleaned row as a metrics-frame row (the metric columns do not exist
yet, and no operating-share column is present). -/
def toMRow (r : R) : MRow :=
  { key := none
    imps := r.imps
    clicks := r.clicks
    cost := r.cost
    conv := r.conv
    rev := r.rev
    rank := r.rank
    cpc := none
    ctr := none
    cpa := none
    cvr := none
    roas := none
    arppu := none
    share := none }

/-- The error raised when the combined filters exclude every row. -/
inductive PipelineError
  | emptyResult
deriving DecidableEq

/-- Shallow embedding of lines 358-366 of waug.py: filter, then — if the result is
empty — warn the user and stop (`st.stop()`), reaching no aggregation; otherwise
derive the metrics on the filtered rows. -/
def run_pipeline (f : FilterSpec) (rows : List R) : Except PipelineError Frame :=
  let fd := filter_data f rows
  if fd.isEmpty then Except.error PipelineError.emptyResult
  else Except.ok (calculate_metrics { rows := fd.map toMRow, hasShare := false })

/-- The required columns of the raw sheet (lines 178-182 of waug.py). -/
def required_columns_raw : List String :=
  ["일별", "캠페인유형", "캠페인", "광고그룹", "키워드", "PC/모바일 매체",
   "노출수", "클릭수", "총비용(VAT포함,원)", "전환수", "평균노출순위", "전환매출액(원)",
   "캠페인 카테고리", "캠페인 국가"]

/-- Shallow embedding of `validate_data(df, required_columns)`: the error carries
the list of required columns absent from the frame. -/
def validate_data (cols required : List String) : Except (List String) Unit :=
  if (required.filter (fun c => !(cols.contains c))).isEmpty then Except.ok ()
  else Except.error (required.filter (fun c => !(cols.contains c)))

/-- Column-level behaviour of `preprocess_data`: `validate_data` runs on the raw
column names first (line 185), and only afterwards are the column names
whitespace-trimmed (line 188). -/
def preprocess_columns (cols : List String) : Except (List String) (List String) :=
  match validate_data cols required_columns_raw with
  | Except.error m => Except.error m
  | Except.ok _ => Except.ok (cols.map String.trim)

/-- Model of `.str.replace(',', '')` on a cell rendered as a string. -/
def stripCommas (s : String) : String := ⟨s.data.filter (fun c => !(c == ','))⟩

/-- Model of the subsequent `.replace('[-+]', '')`: a pandas `Series.replace` with
two scalars and `regex=False`, which replaces only the cells whose entire content
equals the literal string `[-+]` — it does not strip sign characters. -/
def sign_replace (s : String) : String := if s = "[-+]" then "" else s

/-- Numeric value of a list of decimal digit characters. -/
def digitsToNat (cs : List Char) : ℕ :=
  cs.foldl (fun a c => 10 * a + (c.toNat - 48)) 0

/-- Whether every character of the list is a decimal digit. -/
def allDigits (cs : List Char) : Bool := cs.all Char.isDigit

/-- Split a character list at the decimal points (accumulator holds the current
segment reversed). -/
def splitDot : List Char → List Char → List (List Char)
  | [], acc => [acc.reverse]
  | c :: t, acc => if c = '.' then acc.reverse :: splitDot t [] else splitDot t (c :: acc)

/-- Parse an unsigned decimal numeral, with an optional single decimal point;
anything else is unparsable. -/
def parseUnsigned (cs : List Char) : Option ℚ :=
  match splitDot cs [] with
  | [a] =>
      if !a.isEmpty && allDigits a then some ((digitsToNat a : ℚ)) else none
  | [a, b] =>
      if (!a.isEmpty || !b.isEmpty) && allDigits a && allDigits b then
        some ((digitsToNat a : ℚ) + (digitsToNat b : ℚ) / 10 ^ b.length)
      else none
  | _ => none

/-- Model of `pd.to_numeric(..., errors='coerce')` on one string cell: an optional
leading sign then a decimal numeral; an unparsable cell becomes missing, never an
error. -/
def parseNum (s : String) : Option ℚ :=
  match s.data with
  | '+' :: rest => parseUnsigned rest
  | '-' :: rest => (parseUnsigned rest).map (fun q => -q)
  | cs => parseUnsigned cs

/-- Shallow embedding of the numeric coercion applied to each configured numeric
column (line 210 of waug.py): remove commas, apply the element-level
`Series.replace('[-+]', '')`, then parse with coercion of failures to missing. -/
def coerce_cell (s : String) : Option ℚ := parseNum (sign_replace (stripCommas s))

/-- Column-wise coercion: each cell is converted independently. -/
def coerce_column (l : List String) : List (Option ℚ) := l.map coerce_cell

/-- Modelled from the spec: the claim's reading of the coercion — strip thousands
separators and one stray leading sign character, then parse. Stated only to be
compared with `coerce_cell`, which embeds the source. -/
def strip_sign (s : String) : String :=
  match s.data with
  | '+' :: rest => ⟨rest⟩
  | '-' :: rest => ⟨rest⟩
  | _ => s

/-- Modelled from the spec: numeric coercion as the claim describes it. -/
def spec_coerce_cell (s : String) : Option ℚ := parseNum (strip_sign (stripCommas s))

/-- A row of a sheet handed to the report writer, with the columns classified by
`save_df_to_excel`: currency, count, percentage and rank columns. -/
structure XRow where
  period : Option String
  cost : V
  rev : V
  cpc : V
  cpa : V
  arppu : V
  imps : V
  clicks : V
  conv : V
  kwcount : V
  ctr : V
  cvr : V
  roas : V
  share : V
  rank : V
deriving DecidableEq

/-- Model of `pd.to_numeric(col, errors='coerce').fillna(0)` on an already numeric
column: a missing value becomes 0. -/
def fill0 (v : V) : ℚ := v.getD 0

/-- Shallow embedding of the per-column conversion in `save_df_to_excel`
(lines 1049-1059 of waug.py): currency and count columns get `round(0)`,
percentage columns get `round(2) / 100`, the rank column gets `round(1)`. -/
def save_row (r : XRow) : XRow :=
  { period := r.period
    cost := some (roundTo 0 (fill0 r.cost))
    rev := some (roundTo 0 (fill0 r.rev))
    cpc := some (roundTo 0 (fill0 r.cpc))
    cpa := some (roundTo 0 (fill0 r.cpa))
    arppu := some (roundTo 0 (fill0 r.arppu))
    imps := some (roundTo 0 (fill0 r.imps))
    clicks := some (roundTo 0 (fill0 r.clicks))
    conv := some (roundTo 0 (fill0 r.conv))
    kwcount := some (roundTo 0 (fill0 r.kwcount))
    ctr := some (roundTo 2 (fill0 r.ctr) / 100)
    cvr := some (roundTo 2 (fill0 r.cvr) / 100)
    roas := some (roundTo 2 (fill0 r.roas) / 100)
    share := some (roundTo 2 (fill0 r.share) / 100)
    rank := some (roundTo 1 (fill0 r.rank)) }

/-- All-missing metrics row, base for concrete instances. -/
def mrow0 : MRow :=
  { key := none, imps := none, clicks := none, cost := none, conv := none, rev := none,
    rank := none, cpc := none, ctr := none, cpa := none, cvr := none, roas := none,
    arppu := none, share := none }

/-- All-missing cleaned row, base for concrete instances. -/
def row0 : R :=
  { day := 0, camp := none, adg := none, kw := none, media := none, ctype := none,
    cat := none, region := none, ptype := none, imps := none, clicks := none,
    cost := none, conv := none, rev := none, rank := none }

/-- All-missing raw-sheet row, base for concrete instances. -/
def raw0 : RawRow :=
  { day := 0, ctype := none, campaign := none, adg := none, kw := none, media := none,
    imps := none, clicks := none, cost := none, conv := none, rank := none, rev := none,
    raw_category := none, raw_country := none }

/-- All-missing export row, base for concrete instances. -/
def xrow0 : XRow :=
  { period := none, cost := none, rev := none, cpc := none, cpa := none, arppu := none,
    imps := none, clicks := none, conv := none, kwcount := none, ctr := none, cvr := none,
    roas := none, share := none, rank := none }

/-! Helper lemmas. -/

/-- Round-half-even fixes integers. -/
theorem rhe_intCast (n : ℤ) : rhe ((n : ℚ)) = n := by
  simp [rhe, Int.floor_intCast]

/-- Round-half-even moves a rational by at most one half. -/
theorem rhe_close (q : ℚ) : |(rhe q : ℚ) - q| ≤ 1 / 2 := by
  have h1 : (Int.floor q : ℚ) ≤ q := Int.floor_le q
  have h2 : q < Int.floor q + 1 := Int.lt_floor_add_one q
  unfold rhe
  split_ifs <;> rw [abs_le] <;> constructor <;> push_cast <;> linarith

/-- Clearing the scaling denominator of `roundTo`. -/
theorem roundTo_mul_pow (d : ℕ) (q : ℚ) :
    roundTo d q * 10 ^ d = (rhe (q * 10 ^ d) : ℚ) := by
  rw [roundTo, div_mul_cancel₀]
  positivity

/-- Decimal rounding is idempotent. -/
theorem roundTo_idem (d : ℕ) (q : ℚ) : roundTo d (roundTo d q) = roundTo d q := by
  have h : roundTo d (roundTo d q) = (rhe (roundTo d q * 10 ^ d) : ℚ) / 10 ^ d := rfl
  rw [h, roundTo_mul_pow, rhe_intCast, roundTo]

/-- Decimal rounding at `d` places moves a rational by at most half a unit in the
last place. -/
theorem roundTo_close (d : ℕ) (q : ℚ) : |roundTo d q - q| ≤ 1 / (2 * 10 ^ d) := by
  have hp : (0 : ℚ) < 10 ^ d := by positivity
  have hd : roundTo d q - q = ((rhe (q * 10 ^ d) : ℚ) - q * 10 ^ d) / 10 ^ d := by
    rw [roundTo]
    field_simp
    ring
  rw [hd, abs_div, abs_of_pos hp]
  have h := rhe_close (q * 10 ^ d)
  calc |(rhe (q * 10 ^ d) : ℚ) - q * 10 ^ d| / 10 ^ d
      ≤ (1 / 2) / 10 ^ d := by gcongr
    _ = 1 / (2 * 10 ^ d) := by rw [div_div]

/-- Element-wise one-decimal rounding is idempotent. -/
theorem vround1_idem (v : V) : vround1 (vround1 v) = vround1 v := by
  cases v with
  | none => rfl
  | some q => simp [vround1, roundTo_idem]

/-- Sum of the empty column. -/
theorem vsumQ_nil : vsumQ [] = 0 := rfl

/-- Unfolding of the NaN-skipping sum. -/
theorem vsumQ_cons (v : V) (l : List V) : vsumQ (v :: l) = v.getD 0 + vsumQ l := rfl

/-- Membership in the deduplication worker. -/
theorem mem_dd_go {α : Type} [DecidableEq α] (a : α) :
    ∀ (l seen : List α), a ∈ dd_go l seen ↔ a ∈ l ∧ a ∉ seen := by
  intro l
  induction l with
  | nil => intro seen; simp [dd_go]
  | cons b t ih =>
      intro seen
      by_cases hb : b ∈ seen
      · rw [dd_go]
        simp only [if_pos hb, ih, List.mem_cons]
        constructor
        · rintro ⟨h1, h2⟩
          exact ⟨Or.inr h1, h2⟩
        · rintro ⟨h1, h2⟩
          rcases h1 with rfl | h1
          · exact absurd hb h2
          · exact ⟨h1, h2⟩
      · rw [dd_go]
        simp only [if_neg hb, List.mem_cons, ih]
        by_cases hab : a = b
        · subst hab
          simp [hb]
        · simp [hab]

/-- `drop_duplicates` preserves membership. -/
theorem mem_drop_duplicates {α : Type} [DecidableEq α] (a : α) (l : List α) :
    a ∈ drop_duplicates l ↔ a ∈ l := by
  simp [drop_duplicates, mem_dd_go]

/-- Removing commas is idempotent. -/
theorem stripCommas_idem (s : String) : stripCommas (stripCommas s) = stripCommas s := by
  unfold stripCommas
  rw [List.filter_filter]
  simp

/-! Claim theorems. -/

/-- C1 (amended): `safe_division` returns 0 for an exact-zero denominator (for every
numerator, including 0 and a missing value), and returns the exact quotient for a
nonzero numeric denominator; but a missing (null/NaN) denominator is propagated as
missing — `np.where(y != 0, x / y, 0)` selects the `x / y` branch because NaN
compares unequal to 0 — rather than yielding 0 as the claim states. The function is
total, so no exception is raised in any case. -/
theorem C1_safe_division_zero_vs_nan (x : V) (p q : ℚ) (hq : q ≠ 0) :
    safe_division x (some 0) = some 0 ∧
    safe_division (some p) (some q) = some (p / q) ∧
    safe_division x none = vdiv x none := by
  refine ⟨?_, ?_, ?_⟩
  · simp [safe_division, vne0]
  · simp [safe_division, vne0, vdiv, hq]
  · simp [safe_division, vne0]

/-- C1 witness: `safe_division` evaluated at concrete scalars. -/
theorem C1_safe_division_zero_vs_nan_witness :
    safe_division (some 6) (some 3) = some 2 ∧
    safe_division (some 0) (some 0) = some 0 ∧
    safe_division (some 6) none = none := by
  have h0 := C1_safe_division_zero_vs_nan (some 0) 6 3 (by norm_num)
  have h6 := C1_safe_division_zero_vs_nan (some 6) 6 3 (by norm_num)
  refine ⟨?_, h0.1, ?_⟩
  · rw [h6.2.1]
    norm_num
  · rw [h6.2.2]
    rfl

/-- C1 counterexample: the claim asserts `safe_divide(x, NaN) = 0`, but the code
propagates the missing denominator: `safe_division (some 1) none` is missing, not 0. -/
theorem C1_counterexample :
    safe_division (some 1) none = none ∧ (none : V) ≠ some 0 := by
  constructor
  · simp [safe_division, vne0, vdiv]
  · simp

/-- C2 (amended): provided no original row already carries the sentinel facet value
`전체`, the `전체` group obtained by grouping the expanded rows on `상품유형`
consists exactly of the overwritten copies of the original rows, so its raw sums
(impressions, clicks, cost, conversions, revenue) equal the sums over the original
non-expanded rows, and its distinct keyword count equals the distinct count over
the union of the original rows. (If a row's facet already equals the sentinel, the
copy double-counts it — see the counterexample.) -/
theorem C2_expand_with_total_all_group (rows : List R)
    (h : ∀ r ∈ rows, r.ptype ≠ some "전체") :
    facet_group "전체" (expand_with_total rows)
        = rows.map (fun r => { r with ptype := some "전체" }) ∧
    vsumQ ((facet_group "전체" (expand_with_total rows)).map R.imps)
        = vsumQ (rows.map R.imps) ∧
    vsumQ ((facet_group "전체" (expand_with_total rows)).map R.clicks)
        = vsumQ (rows.map R.clicks) ∧
    vsumQ ((facet_group "전체" (expand_with_total rows)).map R.cost)
        = vsumQ (rows.map R.cost) ∧
    vsumQ ((facet_group "전체" (expand_with_total rows)).map R.conv)
        = vsumQ (rows.map R.conv) ∧
    vsumQ ((facet_group "전체" (expand_with_total rows)).map R.rev)
        = vsumQ (rows.map R.rev) ∧
    nunique_kw (facet_group "전체" (expand_with_total rows)) = nunique_kw rows := by
  have key : facet_group "전체" (expand_with_total rows)
      = rows.map (fun r => { r with ptype := some "전체" }) := by
    unfold facet_group expand_with_total
    rw [List.filter_append]
    have h1 : rows.filter (fun r => decide (r.ptype = some "전체")) = [] := by
      rw [List.filter_eq_nil_iff]
      intro a ha
      simpa using h a ha
    have h2 : (rows.map (fun r => { r with ptype := some "전체" })).filter
        (fun r => decide (r.ptype = some "전체"))
        = rows.map (fun r => { r with ptype := some "전체" }) := by
      rw [List.filter_eq_self]
      intro a ha
      rw [List.mem_map] at ha
      obtain ⟨b, hb, rfl⟩ := ha
      simp
    rw [h1, h2, List.nil_append]
  rw [key]
  refine ⟨rfl, ?_, ?_, ?_, ?_, ?_, ?_⟩
  · rw [List.map_map]
    rfl
  · rw [List.map_map]
    rfl
  · rw [List.map_map]
    rfl
  · rw [List.map_map]
    rfl
  · rw [List.map_map]
    rfl
  · unfold nunique_kw
    rw [List.filterMap_map]
    rfl

/-- C2 witness: a one-row data set whose facet is not the sentinel. -/
theorem C2_expand_with_total_all_group_witness :
    vsumQ ((facet_group "전체"
        (expand_with_total [{ row0 with ptype := some "A", cost := some 7 }])).map R.cost)
      = vsumQ ([{ row0 with ptype := some "A", cost := some 7 }].map R.cost) :=
  (C2_expand_with_total_all_group _ (by decide)).2.2.2.1

/-- C2 counterexample: the claim quantifies over every set of clean rows, but if an
original row already has `상품유형 = 전체`, that row lands in the `전체` group
together with its copy, and the group's cost sum doubles the original sum. -/
theorem C2_counterexample :
    vsumQ ((facet_group "전체"
        (expand_with_total [{ row0 with ptype := some "전체", cost := some 1 }])).map R.cost)
      = 2 ∧
    vsumQ ([{ row0 with ptype := some "전체", cost := some 1 }].map R.cost) = 1 ∧
    (2 : ℚ) ≠ 1 := by
  refine ⟨?_, ?_, by norm_num⟩
  · norm_num [facet_group, expand_with_total, row0, vsumQ]
  · norm_num [row0, vsumQ]

/-- Sum of the operating shares computed against a nonzero basis `t`. -/
theorem sum_shares_eq (t : ℚ) (ht : t ≠ 0) (rows : List MRow) :
    vsumQ (rows.map (fun r => vmul (safe_division r.cost (some t)) 100))
      = vsumQ (rows.map MRow.cost) * 100 / t := by
  induction rows with
  | nil => simp [vsumQ]
  | cons a l ih =>
      rw [List.map_cons, List.map_cons, vsumQ_cons, vsumQ_cons, ih]
      cases ha : a.cost with
      | none =>
          simp [ha, safe_division, vne0, vdiv, vmul, ht]
      | some c =>
          simp [ha, safe_division, vne0, vdiv, vmul, ht]
          field_simp
          ring

/-- C3 (amended): for every grouped frame without a pre-existing operating-share
column — the shape of every `groupby(...).agg(...)` result handed to
`calculate_metrics` — the derived operating-share values sum to exactly 100,
provided the summed cost over the returned groups is nonzero; the basis is the cost
sum of that very frame, not a global constant. (If every group's cost is zero, all
shares are 0 and the sum is 0, not 100 — see the counterexample.) -/
theorem C3_operating_share_sums_to_100 (F : Frame) (hs : F.hasShare = false)
    (ht : vsumQ (F.rows.map MRow.cost) ≠ 0) :
    vsumQ ((calculate_metrics F).rows.map MRow.share) = 100 := by
  have hmap : (calculate_metrics F).rows.map MRow.share
      = F.rows.map (fun r =>
          vmul (safe_division r.cost (some (vsumQ (F.rows.map MRow.cost)))) 100) := by
    simp only [calculate_metrics, List.map_map, hs]
    rfl
  rw [hmap, sum_shares_eq _ ht, mul_comm, mul_div_assoc, div_self ht, mul_one]

/-- C3 witness: a single group with cost 5 receives share 100. -/
theorem C3_operating_share_sums_to_100_witness :
    vsumQ ((calculate_metrics
        { rows := [{ mrow0 with cost := some 5 }], hasShare := false }).rows.map
      MRow.share) = 100 :=
  C3_operating_share_sums_to_100
    { rows := [{ mrow0 with cost := some 5 }], hasShare := false } rfl
    (by norm_num [vsumQ, mrow0])

/-- C3 counterexample: the region aggregation over two regions of zero cost is a
partition of the filtered rows with no virtual-total row, yet its operating-share
values sum to 0, not 100: `safe_division` turns each share over the zero basis
into 0. -/
theorem C3_counterexample :
    vsumQ ((region_metrics
        [{ row0 with region := some "A", cost := some 0 }]).rows.map MRow.share) = 0 ∧
    (0 : ℚ) ≠ 100 := by
  constructor
  · norm_num [region_metrics, regionGroupRows, mkGroupRow, calculate_metrics, calcRow,
      drop_duplicates, dd_go, sort_values_cost_desc, insert_by_cost, vsumQ, vmean,
      safe_division, vne0, vdiv, vmul, vround1, row0, Option.getD]
  · norm_num

/-- Deriving the metrics twice from the same raw sums changes nothing per row. -/
theorem calcRow_idem (t t2 : ℚ) (hs : Bool) (r : MRow) :
    calcRow t2 true (calcRow t hs r) = calcRow t hs r := by
  simp [calcRow, vround1_idem]

/-- C4 (confirmed): `calculate_metrics` is idempotent: applied to its own output it
reproduces the frame exactly — every derived value (CPC, CTR, CPA, CVR, ROAS, ARPPU,
operating share, rounded average rank) is unchanged, because the raw sums are
untouched, the share column already exists on the second pass, and one-decimal
rounding is idempotent. -/
theorem C4_calculate_metrics_idempotent (F : Frame) :
    calculate_metrics (calculate_metrics F) = calculate_metrics F := by
  cases F with
  | mk rows hs =>
      simp only [calculate_metrics]
      congr 1
      have e1 : vsumQ (((rows.map (calcRow (vsumQ (rows.map MRow.cost)) hs))).map MRow.cost)
          = vsumQ (rows.map MRow.cost) := by
        rw [List.map_map]
        rfl
      rw [e1, List.map_map]
      refine List.map_congr_left ?_
      intro a ha
      exact calcRow_idem _ _ _ _

/-- C5 (amended): a campaign present in the raw rows appears in the campaign-grouped
output regardless of the contents of the reference index sheet — the index sheet is
never joined, so absence from it can drop nothing — but it carries the
category/product-type taken from the raw sheet's own `캠페인 카테고리` column, not a
null category; rows whose campaign, category or product-type key is missing are
dropped by the pandas grouping. -/
theorem C5_campaign_kept_with_raw_category (raw : List RawRow)
    (idx idx2 : List IndexEntry) (r : RawRow) (c k : String)
    (hr : r ∈ raw) (hc : r.campaign = some c) (hk : r.raw_category = some k) :
    campaign_metrics_from_upload raw idx = campaign_metrics_from_upload raw idx2 ∧
    (some c, some k, some k) ∈ campaign_metrics_from_upload raw idx := by
  refine ⟨rfl, ?_⟩
  unfold campaign_metrics_from_upload campaign_keys preprocess_data
  rw [mem_drop_duplicates, List.mem_map]
  refine ⟨preprocess_row r, ?_, ?_⟩
  · rw [List.mem_filter]
    refine ⟨List.mem_map_of_mem _ hr, ?_⟩
    simp [preprocess_row, hc, hk]
  · simp [preprocess_row, hc, hk]

/-- C5 witness: a campaign `X` with raw category `C` and an empty index sheet. -/
theorem C5_campaign_kept_with_raw_category_witness :
    (some "X", some "C", some "C") ∈ campaign_metrics_from_upload
        [{ raw0 with campaign := some "X", raw_category := some "C" }] [] :=
  (C5_campaign_kept_with_raw_category _ [] []
    { raw0 with campaign := some "X", raw_category := some "C" } "X" "C"
    (by decide) rfl rfl).2

/-- C5 counterexample: with campaign `X` carrying raw category `C` and an index
sheet with no entry for `X`, the claim predicts a campaign-grouped row with a null
category; the code instead produces exactly the key `(X, C, C)` from the raw sheet's
own columns, and no null-category key exists in the output. -/
theorem C5_counterexample :
    campaign_metrics_from_upload
        [{ raw0 with campaign := some "X", raw_category := some "C" }] []
      = [(some "X", some "C", some "C")] ∧
    (campaign_metrics_from_upload
        [{ raw0 with campaign := some "X", raw_category := some "C" }] []).all
      (fun e => e.2.1.isSome) = true := by
  constructor
  · decide
  · decide

/-- C6 (amended): `validate_data` inside `preprocess_data` raises the schema error
naming exactly the missing required columns if and only if some required column is
absent from the raw column names, and otherwise preprocessing proceeds to the
column-name trim; but validation runs BEFORE the whitespace trim, so a required
column whose header differs only by surrounding whitespace IS reported missing. -/
theorem C6_schema_validation (cols : List String) :
    (required_columns_raw.all (fun c => cols.contains c) = true →
      preprocess_columns cols = Except.ok (cols.map String.trim)) ∧
    (required_columns_raw.all (fun c => cols.contains c) = false →
      preprocess_columns cols
        = Except.error (required_columns_raw.filter (fun c => !(cols.contains c)))) ∧
    (∀ m, preprocess_columns cols = Except.error m →
      m ≠ [] ∧ ∀ c ∈ m, c ∈ required_columns_raw ∧ cols.contains c = false) := by
  by_cases hall : required_columns_raw.all (fun c => cols.contains c) = true
  · have hmiss : required_columns_raw.filter (fun c => !(cols.contains c)) = [] := by
      rw [List.filter_eq_nil_iff]
      intro a ha
      have h2 := List.all_eq_true.mp hall a ha
      simpa using h2
    have hok : preprocess_columns cols = Except.ok (cols.map String.trim) := by
      unfold preprocess_columns validate_data
      rw [hmiss]
      rfl
    refine ⟨fun _ => hok, fun hfalse => ?_, fun m hm => ?_⟩
    · rw [hall] at hfalse
      exact absurd hfalse (by simp)
    · rw [hok] at hm
      exact absurd hm (by simp)
  · have hmiss : required_columns_raw.filter (fun c => !(cols.contains c)) ≠ [] := by
      intro he
      rw [List.filter_eq_nil_iff] at he
      refine hall (List.all_eq_true.mpr ?_)
      intro a ha
      have h2 := he a ha
      simpa using h2
    have herr : preprocess_columns cols
        = Except.error (required_columns_raw.filter (fun c => !(cols.contains c))) := by
      unfold preprocess_columns validate_data
      rw [if_neg (by simpa [List.isEmpty_iff] using hmiss)]
    refine ⟨fun htrue => absurd htrue hall, fun _ => herr, fun m hm => ?_⟩
    rw [herr] at hm
    injection hm with hm
    subst hm
    refine ⟨hmiss, ?_⟩
    intro c hc
    rw [List.mem_filter] at hc
    refine ⟨hc.1, ?_⟩
    have h2 := hc.2
    simp only [Bool.not_eq_true'] at h2
    exact h2

/-- C6 witness: the exact required column set validates and preprocessing proceeds
to the trim step. -/
theorem C6_schema_validation_witness :
    preprocess_columns required_columns_raw
      = Except.ok (required_columns_raw.map String.trim) :=
  (C6_schema_validation required_columns_raw).1 (by decide)

/-- C6 counterexample: a header equal to `일별` up to surrounding whitespace is
reported missing — the claim predicts it is not, since it takes the trim to run
first; in the code `validate_data` sees the untrimmed header ` 일별`. -/
theorem C6_counterexample :
    preprocess_columns
        [" 일별", "캠페인유형", "캠페인", "광고그룹", "키워드", "PC/모바일 매체",
         "노출수", "클릭수", "총비용(VAT포함,원)", "전환수", "평균노출순위", "전환매출액(원)",
         "캠페인 카테고리", "캠페인 국가"]
      = Except.error ["일별"] ∧
    (" 일별").data.dropWhile Char.isWhitespace = ("일별").data := by
  constructor
  · rfl
  · decide

/-- C7 (amended): the numeric coercion strips thousands separators (adding or
removing commas never changes the parsed value), converts each cell independently —
one unparsable cell turns into a missing value without disturbing any other cell or
aborting the load — and the element-level `Series.replace('[-+]', '')` nulls only a
cell whose entire content is the literal string `[-+]`; it does not strip a leading
sign character from ordinary values. -/
theorem C7_numeric_coercion (s : String) (l1 l2 : List String) (t : String) :
    coerce_cell (stripCommas s) = coerce_cell s ∧
    coerce_cell "[-+]" = none ∧
    coerce_column (l1 ++ t :: l2) = coerce_column l1 ++ coerce_cell t :: coerce_column l2 := by
  refine ⟨?_, ?_, ?_⟩
  · unfold coerce_cell
    rw [stripCommas_idem]
  · rfl
  · unfold coerce_column
    rw [List.map_append, List.map_cons]

/-- C7 counterexample: the claim says a stray leading sign character is stripped
before parsing, which would turn the cell `-5` into the value 5; the code leaves the
sign in place — `Series.replace('[-+]', '')` only matches whole cells — and parses
`-5` to the value −5. -/
theorem C7_counterexample :
    coerce_cell "-5" = some (-5) ∧
    spec_coerce_cell "-5" = some 5 ∧
    some ((-5 : ℚ)) ≠ some (5 : ℚ) := by
  refine ⟨?_, ?_, by norm_num⟩
  · have h : coerce_cell "-5" = some (-((5 : ℕ) : ℚ)) := rfl
    rw [h]
    norm_num
  · have h : spec_coerce_cell "-5" = some (((5 : ℕ) : ℚ)) := rfl
    rw [h]
    norm_num

/-- C8 (amended): at export, the report writer stores each percentage metric (CTR,
CVR, ROAS, operating share) as the value first rounded to 2 decimal places and then
divided by 100 — not the exact internal value divided by 100 — while currency and
count metrics are rounded to the nearest whole unit (within one half) and the
average rank is rounded to 1 decimal. -/
theorem C8_export_scaling (r : XRow) (q : ℚ) :
    (save_row r).cost = some (roundTo 0 (fill0 r.cost)) ∧
    (save_row r).arppu = some (roundTo 0 (fill0 r.arppu)) ∧
    (save_row r).imps = some (roundTo 0 (fill0 r.imps)) ∧
    (save_row r).ctr = some (roundTo 2 (fill0 r.ctr) / 100) ∧
    (save_row r).share = some (roundTo 2 (fill0 r.share) / 100) ∧
    (save_row r).rank = some (roundTo 1 (fill0 r.rank)) ∧
    |roundTo 0 q - q| ≤ 1 / 2 ∧
    |roundTo 2 q / 100 - q / 100| ≤ 1 / 20000 := by
  refine ⟨rfl, rfl, rfl, rfl, rfl, rfl, ?_, ?_⟩
  · have h := roundTo_close 0 q
    simpa using h
  · have h := roundTo_close 2 q
    have h100 : (0 : ℚ) < 100 := by norm_num
    have hdiff : roundTo 2 q / 100 - q / 100 = (roundTo 2 q - q) / 100 := by ring
    rw [hdiff, abs_div, abs_of_pos h100]
    calc |roundTo 2 q - q| / 100 ≤ (1 / (2 * 10 ^ 2)) / 100 := by gcongr
      _ = 1 / 20000 := by norm_num

/-- C8 counterexample: for an internal CTR of 100/3 percent, the claim predicts the
stored fraction (100/3)/100 = 1/3; the code stores round(100/3, 2)/100 =
33.33/100 = 3333/10000, which differs. -/
theorem C8_counterexample :
    (save_row { xrow0 with ctr := some (100 / 3) }).ctr = some (3333 / 10000) ∧
    (3333 / 10000 : ℚ) ≠ (100 / 3) / 100 := by
  constructor
  · show some (roundTo 2 (fill0 (some (100 / 3))) / 100) = some ((3333 : ℚ) / 10000)
    have hf : (Int.floor ((100 / 3 : ℚ) * 10 ^ 2)) = 3333 := by norm_num
    norm_num [fill0, roundTo, rhe, hf]
  · norm_num

/-- C9 (confirmed): whenever the combined filters (inclusive date range plus the
categorical set filters) match zero rows, the pipeline reports the empty-result
error and stops before any aggregation: no aggregate frame is ever computed from
the empty row set. -/
theorem C9_empty_filter_stops (f : FilterSpec) (rows : List R)
    (h : filter_data f rows = []) :
    run_pipeline f rows = Except.error PipelineError.emptyResult := by
  unfold run_pipeline
  rw [h]
  rfl

/-- C9 witness: a nonempty data set whose single row falls outside the date range. -/
theorem C9_empty_filter_stops_witness :
    run_pipeline
      { startD := 10, endD := 20, cats := ["c"], camps := ["x"], adgs := ["g"],
        medias := ["m"], regions := ["r"], ctypes := ["t"], ptypes := ["p"] }
      [{ row0 with
          day := 5, cat := some "c", camp := some "x", adg := some "g",
          media := some "m", region := some "r", ctype := some "t", ptype := some "p" }]
      = Except.error PipelineError.emptyResult :=
  C9_empty_filter_stops _ _ (by decide)

/-- C10 (confirmed): when the input frame already carries an operating-share column,
`calculate_metrics` returns those share values verbatim — even if the frame's cost
column no longer corresponds to them — and recomputes the share from cost only when
the column is absent, while every other derived metric is recomputed from the raw
columns. -/
theorem C10_share_column_preserved (F : Frame) (h : F.hasShare = true) :
    (calculate_metrics F).rows.map MRow.share = F.rows.map MRow.share ∧
    (calculate_metrics F).rows.map MRow.cpc
      = F.rows.map (fun r => safe_division r.cost r.clicks) ∧
    (calculate_metrics F).rows.map MRow.roas
      = F.rows.map (fun r => vmul (safe_division r.rev r.cost) 100) := by
  refine ⟨?_, ?_, ?_⟩ <;> simp only [calculate_metrics, List.map_map, h, calcRow] <;> rfl

/-- C10 witness: a frame whose stored share 77 does not match its cost column is
returned with the share untouched. -/
theorem C10_share_column_preserved_witness :
    (calculate_metrics
        { rows := [{ mrow0 with cost := some 5, share := some 77 }],
          hasShare := true }).rows.map MRow.share = [some 77] := by
  have h := (C10_share_column_preserved
    { rows := [{ mrow0 with cost := some 5, share := some 77 }], hasShare := true } rfl).1
  rw [h]
  rfl
